import Mathlib

/-!
Verification of the `mcp_news_server` data-access layer (`db.py`).

Shallow embedding: the `NewsRepository` class is modelled over an abstract
backing schema (`Repo`).  Pure helper functions of the source are translated
one-for-one; methods that execute SQL are modelled by evaluating the query
semantics (filter / order / limit) over the rows held by the `Repo`.  The
lazily populated metadata caches are modelled separately (`CacheState`) with
an explicitly fallible metadata backend, which is what the cache-atomicity
claims are about; for the data-path operations the cache is transparent
(queries succeed), so those operations read the schema directly.

Python-value conventions used throughout:
* a SQL cell is `Option String`: `none` is NULL, `some s` is the `str`
  rendering of the stored value;
* `dict.get` returning `None` for a missing key or a NULL value collapses to
  `none` (`rowGet`);
* Python truthiness of a string-or-None value is `truthyCell` (`None` and
  `""` are falsy).
-/

namespace NewsServer

/-- A result row: an insertion-ordered mapping from column name to cell
value, as produced by one query execution (`dict(row._mapping)`). -/
abbrev Row := List (String × Option String)

/-- Error taxonomy of the spec; each constructor corresponds to one `raise`
site in `db.py`. -/
inductive RepoError where
  | unknownSymbol
  | invalidLimit
  | invalidDateFormat
  | malformedId
  | noPrimaryKey
  | notFound
  | metadataUnavailable
  deriving DecidableEq, Repr

/-! ### Python string primitives -/

/-- Characters removed by Python `str.strip()` (ASCII whitespace). -/
def pyIsSpace (c : Char) : Bool :=
  c = ' ' || c = '\t' || c = '\n' || c = '\x0d' || c = '\x0b' || c = '\x0c'

/-- Python `str.strip()`. -/
def pyStrip (s : String) : String :=
  ⟨((s.data.dropWhile pyIsSpace).reverse.dropWhile pyIsSpace).reverse⟩

/-- Python `str.lower()` (ASCII range, which covers table identifiers). -/
def pyLower (s : String) : String :=
  ⟨s.data.map Char.toLower⟩

/-- Lexicographic `≤` on char lists by code point (Python string order). -/
def charsLe : List Char → List Char → Bool
  | [], _ => true
  | _ :: _, [] => false
  | a :: as, b :: bs =>
    if a.val < b.val then true
    else if b.val < a.val then false
    else charsLe as bs

/-- Python string `≤`. -/
def strLe (a b : String) : Bool := charsLe a.data b.data

/-- `pat` occurs as a contiguous run of `hay` (semantics of SQL
`LIKE '%pat%'` for a pattern without wildcard characters; the repository
interpolates the cleaned user query directly, and none of the verified
properties depend on wildcard interpretation). -/
def charsHasRun (hay pat : List Char) : Bool :=
  match hay with
  | [] => pat.isEmpty
  | _ :: rest => List.isPrefixOf pat hay || charsHasRun rest pat

/-- Substring containment on strings. -/
def strContains (hay pat : String) : Bool := charsHasRun hay.data pat.data

/-! ### Association-list dictionaries (Python `dict`) -/

/-- `dict[k] = v`: overwrite in place when the key exists (keeping its
insertion position), append otherwise. -/
def dictSet {α : Type} : List (String × α) → String → α → List (String × α)
  | [], k, v => [(k, v)]
  | (k', v') :: rest, k, v =>
    if k' = k then (k, v) :: rest else (k', v') :: dictSet rest k v

/-- `dict.get k` (first binding wins; `dictSet` keeps keys unique). -/
def dictGet {α : Type} : List (String × α) → String → Option α
  | [], _ => none
  | (k', v) :: rest, k => if k' = k then some v else dictGet rest k

/-- `row.get(k)` collapsed over NULL: `none` when the column is absent or
its value is NULL. -/
def rowGet (row : Row) (k : String) : Option String :=
  match dictGet row k with
  | none => none
  | some v => v

/-- Truthiness of a string-or-None cell (`if value:`). -/
def truthyCell : Option String → Bool
  | none => false
  | some s => s ≠ ""

/-- Truthiness of an optional-string argument (`if date_from:`). -/
def truthyOptStr : Option String → Bool
  | none => false
  | some s => s ≠ ""

/-- The f-string rendering of `row.get("date", "")`: the default only
applies when the key is absent; a stored NULL renders as `"None"`. -/
def dateFieldRepr (row : Row) : String :=
  match dictGet row "date" with
  | none => ""
  | some none => "None"
  | some (some v) => v

/-- Order-preserving de-duplication, keeping first occurrences
(`list(dict.fromkeys(...))`); `seen` accumulates keys already emitted. -/
def dedupKeepFirstAux (seen : List String) : List String → List String
  | [] => []
  | x :: rest =>
    if x ∈ seen then dedupKeepFirstAux seen rest
    else x :: dedupKeepFirstAux (x :: seen) rest

/-- `list(dict.fromkeys(...))`. -/
def dedupKeepFirst (l : List String) : List String :=
  dedupKeepFirstAux [] l

/-- Insertion sort by Python string order (`sorted(...)`). -/
def insertStr (x : String) : List String → List String
  | [] => [x]
  | y :: rest => if strLe x y then x :: y :: rest else y :: insertStr x rest

/-- `sorted(strings)`. -/
def sortStrings (l : List String) : List String :=
  l.foldr insertStr []

/-! ### SHA-1 (used by `_document_id` for keyless rows)

Words are `Nat` reduced mod `2^32`; bytes are `Nat < 256`. -/

/-- 32-bit left rotation. -/
def rotl32 (x n : Nat) : Nat :=
  ((x <<< n) % 4294967296) ||| (x >>> (32 - n))

/-- Big-endian bytes → 32-bit words (groups of four). -/
def wordsBE : List Nat → List Nat
  | b0 :: b1 :: b2 :: b3 :: rest =>
    (b0 * 16777216 + b1 * 65536 + b2 * 256 + b3) :: wordsBE rest
  | _ => []

/-- Extend the 16-word schedule by `n` further words. -/
def sha1ExtendN : Nat → Array Nat → Array Nat
  | 0, w => w
  | n + 1, w =>
    let i := w.size
    sha1ExtendN n (w.push (rotl32
      ((w.get! (i - 3)) ^^^ (w.get! (i - 8)) ^^^ (w.get! (i - 14)) ^^^ (w.get! (i - 16))) 1))

/-- Round boolean function. -/
def sha1F (i b c d : Nat) : Nat :=
  if i < 20 then (b &&& c) ||| ((4294967295 ^^^ b) &&& d)
  else if i < 40 then b ^^^ c ^^^ d
  else if i < 60 then (b &&& c) ||| (b &&& d) ||| (c &&& d)
  else b ^^^ c ^^^ d

/-- Round constant. -/
def sha1K (i : Nat) : Nat :=
  if i < 20 then 1518500249
  else if i < 40 then 1859775393
  else if i < 60 then 2400959708
  else 3395469782

/-- Compress one 64-byte chunk into the running state. -/
def sha1Chunk (h : Nat × Nat × Nat × Nat × Nat) (chunk : List Nat) :
    Nat × Nat × Nat × Nat × Nat :=
  let w := sha1ExtendN 64 (wordsBE chunk).toArray
  let st := (List.range 80).foldl
    (fun (st : Nat × Nat × Nat × Nat × Nat) i =>
      let (a, b, c, d, e) := st
      let temp := (rotl32 a 5 + sha1F i b c d + e + sha1K i + w.get! i) % 4294967296
      (temp, a, rotl32 b 30, c, d))
    (h.1, h.2.1, h.2.2.1, h.2.2.2.1, h.2.2.2.2)
  ((h.1 + st.1) % 4294967296,
   (h.2.1 + st.2.1) % 4294967296,
   (h.2.2.1 + st.2.2.1) % 4294967296,
   (h.2.2.2.1 + st.2.2.2.1) % 4294967296,
   (h.2.2.2.2 + st.2.2.2.2) % 4294967296)

/-- `k` big-endian bytes of `v`. -/
def bytesBE : Nat → Nat → List Nat
  | 0, _ => []
  | n + 1, v => bytesBE n (v >>> 8) ++ [v % 256]

/-- Merkle–Damgård padding: `0x80`, zeros to 56 mod 64, 8-byte bit length. -/
def sha1Pad (msg : List Nat) : List Nat :=
  let len := msg.length
  let z := (64 + 55 - (len % 64)) % 64
  msg ++ [128] ++ List.replicate z 0 ++ bytesBE 8 (len * 8)

/-- Split into 64-byte chunks. -/
def chunks64 : List Nat → List (List Nat)
  | [] => []
  | x :: rest => ((x :: rest).take 64) :: chunks64 ((x :: rest).drop 64)
  termination_by l => l.length
  decreasing_by simp only [List.length_drop, List.length_cons]; omega

/-- Lowercase hex digit. -/
def hexChar (n : Nat) : Char :=
  if n < 10 then Char.ofNat (48 + n) else Char.ofNat (87 + n)

/-- Eight hex digits of a 32-bit word, most significant first. -/
def hexWord8 (v : Nat) : List Char :=
  (List.range 8).map (fun i => hexChar ((v >>> (4 * (7 - i))) % 16))

/-- `hashlib.sha1(bytes).hexdigest()`. -/
def sha1HexOfBytes (msg : List Nat) : String :=
  let h := (chunks64 (sha1Pad msg)).foldl sha1Chunk
    (1732584193, 4023233417, 2562383102, 271733878, 3285377520)
  ⟨hexWord8 h.1 ++ hexWord8 h.2.1 ++ hexWord8 h.2.2.1 ++
    hexWord8 h.2.2.2.1 ++ hexWord8 h.2.2.2.2⟩

/-- UTF-8 encoding of one character. -/
def utf8Bytes (c : Char) : List Nat :=
  let n := c.toNat
  if n < 128 then [n]
  else if n < 2048 then [192 + n / 64, 128 + n % 64]
  else if n < 65536 then [224 + n / 4096, 128 + (n / 64) % 64, 128 + n % 64]
  else [240 + n / 262144, 128 + (n / 4096) % 64, 128 + (n / 64) % 64, 128 + n % 64]

/-- `s.encode("utf-8")`. -/
def strBytes (s : String) : List Nat :=
  (s.data.map utf8Bytes).flatten

/-- `hashlib.sha1(s.encode("utf-8")).hexdigest()`. -/
def sha1Hex (s : String) : String :=
  sha1HexOfBytes (strBytes s)


/-! ### The repository model

`Repo` is the happy-path view of a `NewsRepository`: the backing schema with
its configured limits.  `inventory` lists the distinct base-table names in
the iteration order of the Python set `_symbols_cache` (theorems that need
distinctness state `R.inventory.Nodup` explicitly); `columnsOf` / `primaryKeyOf`
/ `tableRows` are the results the metadata and data queries deliver.  The
fallible, stateful cache in front of the metadata queries is modelled
separately below (`CacheState`). -/

structure Repo where
  schemaName : String
  inventory : List String
  columnsOf : String → List (String × String)
  primaryKeyOf : String → Option String
  tableRows : String → List Row
  maxRows : Nat
  maxScanSymbols : Nat

/-- `PREFERRED_TEXT_COLUMNS` (db.py). -/
def PREFERRED_TEXT_COLUMNS : List String :=
  ["Title", "title", "headline", "Headline", "summary", "Summary",
   "description", "Description", "content", "Content", "body", "Body"]

/-- `PREFERRED_DATE_COLUMNS` (db.py). -/
def PREFERRED_DATE_COLUMNS : List String :=
  ["date", "Date", "published_at", "publishedAt", "created_at", "datetime"]

/-- `TEXT_DATA_TYPES` (db.py). -/
def TEXT_DATA_TYPES : List String :=
  ["char", "varchar", "tinytext", "text", "mediumtext", "longtext"]

/-- The tuple probed by `_extract_body` after the title. -/
def BODY_FIELD_CANDIDATES : List String :=
  ["summary", "Summary", "description", "Description",
   "content", "Content", "body", "Body"]

/-- `_symbol_lookup_cache`: `{name.lower(): name for name in names}` in
iteration order; a later entry overwrites an earlier one with the same key. -/
def buildLookup (names : List String) : List (String × String) :=
  names.foldl (fun acc n => dictSet acc (pyLower n) n) []

/-- `NewsRepository._validate_symbol` (cache already populated). -/
def validateSymbol (R : Repo) (symbol : String) : Except RepoError String :=
  let normalized := pyStrip symbol
  if normalized ∈ R.inventory then .ok normalized
  else
    match dictGet (buildLookup R.inventory) (pyLower normalized) with
    | some fallback =>
      -- `if fallback:` — the empty string is falsy
      if fallback = "" then .error .unknownSymbol else .ok fallback
    | none => .error .unknownSymbol

/-- `NewsRepository._safe_limit`. -/
def safeLimit (R : Repo) (requested : Int) : Except RepoError Nat :=
  if requested ≤ 0 then .error .invalidLimit
  else .ok (min requested.toNat R.maxRows)

/-- Digits of a decimal numeral to its value. -/
def digitsToNat (l : List Char) : Nat :=
  l.foldl (fun acc c => acc * 10 + (c.toNat - 48)) 0

/-- Gregorian leap year (as `datetime` implements it). -/
def isLeapYear (y : Nat) : Bool :=
  y % 4 = 0 && (y % 100 != 0 || y % 400 = 0)

/-- Length of a month, used by `datetime`'s day-of-month validation. -/
def daysInMonth (y m : Nat) : Nat :=
  if m = 2 then (if isLeapYear y then 29 else 28)
  else if m = 4 || m = 6 || m = 9 || m = 11 then 30
  else 31

/-- `value.split("-")` at the character level. -/
def splitOnChar (c : Char) : List Char → List (List Char)
  | [] => [[]]
  | x :: xs =>
    let rest := splitOnChar c xs
    if x = c then [] :: rest
    else
      match rest with
      | [] => [[x]]
      | r :: rs => (x :: r) :: rs

/-- `datetime.strptime(value, "%Y-%m-%d")` succeeds: exactly four year
digits, one or two month and day digits, in-range values, and a valid
day of month (strptime's regexes plus the `datetime` constructor check). -/
def validDateB (s : String) : Bool :=
  match splitOnChar '-' s.data with
  | [y, m, d] =>
    y.length = 4 && y.all Char.isDigit &&
    1 ≤ m.length && m.length ≤ 2 && m.all Char.isDigit &&
    1 ≤ d.length && d.length ≤ 2 && d.all Char.isDigit &&
    (let yv := digitsToNat y
     let mv := digitsToNat m
     let dv := digitsToNat d
     1 ≤ yv && 1 ≤ mv && mv ≤ 12 && 1 ≤ dv && dv ≤ daysInMonth yv mv)
  | _ => false

/-- `NewsRepository._validate_date`. -/
def validateDate (value : String) : Except RepoError Unit :=
  if validDateB value then .ok () else .error .invalidDateFormat

/-- `NewsRepository._resolve_searchable_columns` (cache transparent). -/
def resolveSearchableColumns (R : Repo) (symbol : String) : List String :=
  let columns := R.columnsOf symbol
  let available := columns.map Prod.fst
  let preferredCols := PREFERRED_TEXT_COLUMNS.filter (fun n => n ∈ available)
  if preferredCols ≠ [] then preferredCols
  else ((columns.filter (fun c => pyLower c.2 ∈ TEXT_DATA_TYPES)).map Prod.fst).take 3

/-- `NewsRepository._resolve_date_column` (cache transparent). -/
def resolveDateColumn (R : Repo) (symbol : String) : Option String :=
  let available := (R.columnsOf symbol).map Prod.fst
  PREFERRED_DATE_COLUMNS.find? (fun candidate => candidate ∈ available)

/-- `NewsRepository._extract_title`. -/
def extractTitle (row : Row) : String :=
  match PREFERRED_TEXT_COLUMNS.find? (fun c => truthyCell (rowGet row c)) with
  | some c => (rowGet row c).getD ""
  | none => ""

/-- Stand-in for Python's `str(dict)` rendering of a row, reached only when
every probed field is falsy; no verified property inspects its exact text. -/
def rowRepr (row : Row) : String :=
  String.intercalate ", " (row.map (fun p => p.1 ++ "=" ++ p.2.getD "None"))

/-- `NewsRepository._extract_body`. -/
def extractBody (row : Row) : String :=
  let title := extractTitle row
  let bodyParts :=
    (if title ≠ "" then [title] else []) ++
    BODY_FIELD_CANDIDATES.filterMap (fun c =>
      let v := rowGet row c
      if truthyCell v then some (v.getD "") else none)
  if bodyParts ≠ [] then String.intercalate "\n\n" bodyParts else rowRepr row

/-- The hash fallback of `_document_id`: first 16 hex characters of
`sha1("{symbol}|{extracted title}|{row.get('date','')}")`. -/
def docIdHash (symbol : String) (row : Row) : String :=
  symbol ++ ":" ++
    (sha1Hex (symbol ++ "|" ++ extractTitle row ++ "|" ++ dateFieldRepr row)).take 16

/-- `NewsRepository._document_id` (cache transparent).  The Python guard is
`if primary_key and row.get(primary_key) is not None:`. -/
def documentId (R : Repo) (symbol : String) (row : Row) : String :=
  match R.primaryKeyOf symbol with
  | some primaryKey =>
    if primaryKey ≠ "" then
      match rowGet row primaryKey with
      | some v => symbol ++ ":" ++ v
      | none => docIdHash symbol row
    else docIdHash symbol row
  | none => docIdHash symbol row

/-- `NewsRepository._augment_row`. -/
def augmentRow (R : Repo) (symbol : String) (row : Row) : Row :=
  dictSet (dictSet row "symbol" (some symbol)) "document_id"
    (some (documentId R symbol row))

/-- `Modelled from the spec:` §4.4 Document Identity Resolver, whose exact
wording ("If the Symbol has a primary key and the row's value for it is
non-null ... else first16HexCharsOfSHA1") the code-derived `documentId` is
compared against. -/
def specDocumentId (R : Repo) (symbol : String) (row : Row) : String :=
  match R.primaryKeyOf symbol with
  | some primaryKey =>
    match rowGet row primaryKey with
    | some v => symbol ++ ":" ++ v
    | none => docIdHash symbol row
  | none => docIdHash symbol row


/-! ### Row-set query semantics

SQL applied to the rows held by the `Repo`: `WHERE` is `filter`,
`ORDER BY «dc» DESC` is a sort with NULLs last, `LIMIT` is `take`. -/

/-- `«dc» >= :date_from` on one cell; a NULL comparison is not satisfied. -/
def dateGeB (dateFromFull : String) (cell : Option String) : Bool :=
  match cell with
  | some v => strLe dateFromFull v
  | none => false

/-- `a` sorts no later than `b` under `ORDER BY «dc» DESC` (larger date
first, NULLs last). -/
def dateKeyGe (a b : Option String) : Bool :=
  match a, b with
  | _, none => true
  | none, some _ => false
  | some x, some y => strLe y x

/-- Insertion step for the descending date sort. -/
def insertRowDesc (dc : String) (r : Row) : List Row → List Row
  | [] => [r]
  | s :: rest =>
    if dateKeyGe (rowGet r dc) (rowGet s dc) then r :: s :: rest
    else s :: insertRowDesc dc r rest

/-- `ORDER BY «dc» DESC`. -/
def sortRowsDesc (dc : String) (rows : List Row) : List Row :=
  rows.foldr (insertRowDesc dc) []

/-! ### The four repository operations -/

/-- `NewsRepository.list_symbols`. -/
def listSymbols (R : Repo) (limit : Option Int) : Except RepoError (List String) :=
  let ordered := sortStrings R.inventory
  match limit with
  | none => .ok ordered
  | some l =>
    match safeLimit R l with
    | .error e => .error e
    | .ok n => .ok (ordered.take n)

/-- `NewsRepository.get_symbol_news`.  Returned rows are augmented with
`symbol` and `document_id`. -/
def getSymbolNews (R : Repo) (symbol : String) (dateFrom : Option String)
    (limit : Int) : Except RepoError (List Row) :=
  match validateSymbol R symbol with
  | .error e => .error e
  | .ok normalizedSymbol =>
    match safeLimit R limit with
    | .error e => .error e
    | .ok rowLimit =>
      match resolveDateColumn R normalizedSymbol with
      | some dc =>
        if truthyOptStr dateFrom then
          -- `if date_from and date_column:` — only here is the date validated
          match validateDate (dateFrom.getD "") with
          | .error e => .error e
          | .ok _ =>
            let dateFromFull := dateFrom.getD "" ++ " 00:00:00"
            let rows := (sortRowsDesc dc ((R.tableRows normalizedSymbol).filter
              (fun r => dateGeB dateFromFull (rowGet r dc)))).take rowLimit
            .ok (rows.map (augmentRow R normalizedSymbol))
        else
          let rows := (sortRowsDesc dc (R.tableRows normalizedSymbol)).take rowLimit
          .ok (rows.map (augmentRow R normalizedSymbol))
      | none =>
        let rows := (R.tableRows normalizedSymbol).take rowLimit
        .ok (rows.map (augmentRow R normalizedSymbol))

/-- `NewsRepository._resolve_target_symbols`; `if not symbols:` treats both
`None` and `[]` as "no explicit list". -/
def resolveTargetSymbols (R : Repo) (symbols : Option (List String)) :
    Except RepoError (List String) :=
  match symbols with
  | none => .ok ((sortStrings R.inventory).take R.maxScanSymbols)
  | some [] => .ok ((sortStrings R.inventory).take R.maxScanSymbols)
  | some l =>
    match l.mapM (validateSymbol R) with
    | .error e => .error e
    | .ok validated => .ok ((dedupKeepFirst validated).take R.maxScanSymbols)

/-- One entry of `search`'s result list (`_search_result`). -/
structure SearchHit where
  id : String
  title : String
  url : String
  text : String
  symbol : String
  date : Option String
  deriving DecidableEq, Repr

/-- The part of a document id after its first colon
(`doc_id.split(':', 1)[1]`; every document id contains a colon). -/
def splitFirstColonAux : List Char → Option (List Char × List Char)
  | [] => none
  | c :: cs =>
    if c = ':' then some ([], cs)
    else
      match splitFirstColonAux cs with
      | none => none
      | some (a, b) => some (c :: a, b)

/-- `s.split(":", 1)` as `(before, after)` when `s` contains a colon. -/
def strSplitFirstColon (s : String) : Option (String × String) :=
  (splitFirstColonAux s.data).map (fun p => (⟨p.1⟩, ⟨p.2⟩))

/-- Part after the first colon (total; callers only apply it to strings
containing a colon). -/
def afterFirstColon (s : String) : String :=
  match strSplitFirstColon s with
  | some p => p.2
  | none => s

/-- `NewsRepository._search_result`. -/
def searchResult (R : Repo) (symbol : String) (row : Row) : SearchHit :=
  let docId := documentId R symbol row
  let title := if extractTitle row ≠ "" then extractTitle row
    else symbol ++ " news item"
  -- `row.get("date") or row.get("Date")`
  let dateValue := if truthyCell (rowGet row "date") then rowGet row "date"
    else rowGet row "Date"
  let snippet :=
    let s := extractBody row
    if 400 < s.length then s.take 397 ++ "..." else s
  { id := docId
    title := title
    url := "mysql://" ++ R.schemaName ++ "/" ++ symbol ++ "/" ++ afterFirstColon docId
    text := snippet
    symbol := symbol
    date := dateValue }

/-- The `LIKE :pattern` predicate OR-ed over the searchable columns. -/
def rowMatchesQuery (cleanedQuery : String) (searchColumns : List String)
    (row : Row) : Bool :=
  searchColumns.any (fun c =>
    match rowGet row c with
    | some v => strContains v cleanedQuery
    | none => false)

/-- The per-target loop of `NewsRepository.search`.  `queryLog` records, per
data query actually executed, the table name and the `LIMIT` bound to it
(`table_limit = min(row_limit - len(results), self.max_rows)`). -/
def searchLoop (R : Repo) (cleanedQuery : String) (dateFrom : Option String)
    (rowLimit : Nat) :
    List String → List SearchHit → List (String × Nat) →
    List SearchHit × List (String × Nat)
  | [], results, queryLog => (results, queryLog)
  | symbol :: rest, results, queryLog =>
    if rowLimit ≤ results.length then (results, queryLog)
    else
      let searchColumns := resolveSearchableColumns R symbol
      if searchColumns = [] then
        searchLoop R cleanedQuery dateFrom rowLimit rest results queryLog
      else
        let dateColumn := resolveDateColumn R symbol
        let tableLimit := min (rowLimit - results.length) R.maxRows
        let matched := (R.tableRows symbol).filter (fun row =>
          rowMatchesQuery cleanedQuery searchColumns row &&
          (match truthyOptStr dateFrom, dateColumn with
           | true, some dc => dateGeB (dateFrom.getD "" ++ " 00:00:00") (rowGet row dc)
           | _, _ => true))
        let ordered :=
          match dateColumn with
          | some dc => sortRowsDesc dc matched
          | none => matched
        let fetched := ordered.take tableLimit
        searchLoop R cleanedQuery dateFrom rowLimit rest
          (results ++ fetched.map (searchResult R symbol))
          (queryLog ++ [(symbol, tableLimit)])

/-- `NewsRepository.search`.  The second component is the data-query log
(which tables were queried, with which `LIMIT`). -/
def search (R : Repo) (query : String) (symbols : Option (List String))
    (dateFrom : Option String) (limit : Int) :
    Except RepoError (List SearchHit × List (String × Nat)) :=
  let cleanedQuery := pyStrip query
  if cleanedQuery = "" then .ok ([], [])
  else
    match safeLimit R limit with
    | .error e => .error e
    | .ok rowLimit =>
      match resolveTargetSymbols R symbols with
      | .error e => .error e
      | .ok targetSymbols =>
        if truthyOptStr dateFrom then
          match validateDate (dateFrom.getD "") with
          | .error e => .error e
          | .ok _ =>
            let out := searchLoop R cleanedQuery dateFrom rowLimit targetSymbols [] []
            .ok (out.1.take rowLimit, out.2)
        else
          let out := searchLoop R cleanedQuery dateFrom rowLimit targetSymbols [] []
          .ok (out.1.take rowLimit, out.2)

/-- The externally visible read unit (`fetch`'s return shape). -/
structure Document where
  id : String
  title : String
  text : String
  url : String
  metaSymbol : String
  metaSchema : String
  metaPrimaryKeyColumn : String
  metaRawRow : Row
  deriving DecidableEq, Repr

/-- `NewsRepository.fetch`.  The second component is the data-query log:
which tables had a data query executed against them (empty when the call
fails before reaching the `SELECT`). -/
def fetch (R : Repo) (identifier : String) :
    Except RepoError Document × List String :=
  match strSplitFirstColon identifier with
  | none => (.error .malformedId, [])
  | some (symbol, rawPk) =>
    match validateSymbol R symbol with
    | .error e => (.error e, [])
    | .ok normalizedSymbol =>
      match R.primaryKeyOf normalizedSymbol with
      | none => (.error .noPrimaryKey, [])
      | some primaryKey =>
        -- `if not primary_key:` — the empty string is falsy
        if primaryKey = "" then (.error .noPrimaryKey, [])
        else
          let rows := ((R.tableRows normalizedSymbol).filter
            (fun r => rowGet r primaryKey == some rawPk)).take 1
          match rows with
          | [] => (.error .notFound, [normalizedSymbol])
          | row :: _ =>
            let title := if extractTitle row ≠ "" then extractTitle row
              else normalizedSymbol ++ " news item"
            (.ok {
              id := documentId R normalizedSymbol row
              title := title
              text := extractBody row
              url := "mysql://" ++ R.schemaName ++ "/" ++ normalizedSymbol
                ++ "/" ++ rawPk
              metaSymbol := normalizedSymbol
              metaSchema := R.schemaName
              metaPrimaryKeyColumn := primaryKey
              metaRawRow := row }, [normalizedSymbol])


/-! ### The metadata cache with a fallible backend

Models `_refresh_symbols_cache`, `_resolve_columns` and
`_resolve_primary_key` as state transitions on the four cache fields of
`NewsRepository.__init__`, over a backend whose metadata queries may fail
(`MetadataUnavailable`).  A Python exception propagates past the method, so
each transition returns the error together with the cache state as the
object is left. -/

/-- The metadata backend: the three `information_schema` queries. -/
structure MetaDb where
  tablesQuery : Except Unit (List String)
  columnsQuery : String → Except Unit (List (String × String))
  pkQuery : String → Except Unit (List String)

/-- The four cache attributes set up in `NewsRepository.__init__`; the
symbols cache is unpopulated exactly when empty (the Python set is falsy). -/
structure CacheState where
  symbolsCache : List String
  symbolLookupCache : List (String × String)
  columnsCache : List (String × List (String × String))
  primaryKeyCache : List (String × Option String)
  deriving DecidableEq, Repr

/-- The caches as `__init__` leaves them. -/
def emptyCache : CacheState := ⟨[], [], [], []⟩

/-- `NewsRepository._refresh_symbols_cache`; builds the set of table names
(`dedupKeepFirst` as one concrete iteration order of the set comprehension)
and the lowercase lookup dict. -/
def refreshSymbolsCache (db : MetaDb) (s : CacheState) :
    Except RepoError Unit × CacheState :=
  if s.symbolsCache ≠ [] then (.ok (), s)
  else
    match db.tablesQuery with
    | .error _ => (.error .metadataUnavailable, s)
    | .ok rows =>
      let names := dedupKeepFirst rows
      (.ok (),
        { s with symbolsCache := names, symbolLookupCache := buildLookup names })

/-- `NewsRepository._resolve_columns`. -/
def resolveColumnsC (db : MetaDb) (symbol : String) (s : CacheState) :
    Except RepoError (List (String × String)) × CacheState :=
  match dictGet s.columnsCache symbol with
  | some columns => (.ok columns, s)
  | none =>
    match db.columnsQuery symbol with
    | .error _ => (.error .metadataUnavailable, s)
    | .ok rows =>
      (.ok rows, { s with columnsCache := dictSet s.columnsCache symbol rows })

/-- `NewsRepository._resolve_primary_key`; the query carries `LIMIT 1`, and
an empty result is cached as `None`. -/
def resolvePrimaryKeyC (db : MetaDb) (symbol : String) (s : CacheState) :
    Except RepoError (Option String) × CacheState :=
  match dictGet s.primaryKeyCache symbol with
  | some pk => (.ok pk, s)
  | none =>
    match db.pkQuery symbol with
    | .error _ => (.error .metadataUnavailable, s)
    | .ok rows =>
      let primaryKey := rows.head?
      (.ok primaryKey,
        { s with primaryKeyCache := dictSet s.primaryKeyCache symbol primaryKey })

/-! ### Concrete repositories for witnesses and counterexamples -/

/-- A small backing schema: `AAPL` has a primary key and a date column,
`NODATE` has a primary key but no date column, `NOPK` has neither. -/
def demoRepo : Repo where
  schemaName := "news"
  inventory := ["AAPL", "NODATE", "NOPK"]
  columnsOf := fun s =>
    if s = "AAPL" then [("id", "int"), ("Title", "varchar"), ("date", "datetime")]
    else if s = "NODATE" then [("id", "int"), ("Title", "varchar")]
    else if s = "NOPK" then [("Title", "varchar"), ("date", "datetime")]
    else []
  primaryKeyOf := fun s =>
    if s = "AAPL" then some "id"
    else if s = "NODATE" then some "id"
    else none
  tableRows := fun s =>
    if s = "AAPL" then
      [[("id", some "1"), ("Title", some "Apple beats estimates"),
        ("date", some "2024-01-05 00:00:00")]]
    else if s = "NODATE" then
      [[("id", some "7"), ("Title", some "plain row")]]
    else if s = "NOPK" then
      [[("Title", some "keyless row"), ("date", some "2024-02-01 00:00:00")]]
    else []
  maxRows := 100
  maxScanSymbols := 50

/-- `demoRepo` with a scan cap of one, for the truncation claims. -/
def capRepo : Repo := { demoRepo with maxScanSymbols := 1 }

/-- An inventory in which two tables differ only by case. -/
def caseRepo : Repo := { demoRepo with inventory := ["AAPL", "aapl"] }

/-- A metadata backend whose queries all fail. -/
def failingDb : MetaDb where
  tablesQuery := .error ()
  columnsQuery := fun _ => .error ()
  pkQuery := fun _ => .error ()


/-- A metadata backend delivering `demoRepo`'s schema. -/
def okDb : MetaDb where
  tablesQuery := .ok ["AAPL", "NODATE", "NOPK"]
  columnsQuery := fun s => .ok (demoRepo.columnsOf s)
  pkQuery := fun s =>
    .ok (match demoRepo.primaryKeyOf s with | some pk => [pk] | none => [])

/-- The single `AAPL` row of `demoRepo`. -/
def aaplRow : Row :=
  [("id", some "1"), ("Title", some "Apple beats estimates"),
   ("date", some "2024-01-05 00:00:00")]

/-- The single `NODATE` row of `demoRepo`. -/
def nodateRow : Row := [("id", some "7"), ("Title", some "plain row")]

/-- Proof helper: the last element of `names` whose lowercase form is `k`
(the binding that survives in `buildLookup names`, where later writes win). -/
def lastMatch (k : String) : List String → Option String
  | [] => none
  | n :: rest =>
    match lastMatch k rest with
    | some m => some m
    | none => if pyLower n = k then some n else none


deriving instance DecidableEq for Except

/-! ### Helper lemmas -/

theorem dictGet_dictSet {α : Type} (m : List (String × α)) (k k' : String) (v : α) :
    dictGet (dictSet m k v) k' = if k = k' then some v else dictGet m k' := by
  induction m with
  | nil => simp [dictSet, dictGet]
  | cons p rest ih =>
    obtain ⟨pk, pv⟩ := p
    by_cases h1 : pk = k
    · subst h1
      by_cases h2 : pk = k'
      · subst h2
        simp [dictSet, dictGet]
      · simp [dictSet, dictGet, h2]
    · by_cases h2 : pk = k'
      · subst h2
        have hk : ¬ k = pk := fun h => h1 h.symm
        simp [dictSet, dictGet, h1, hk]
      · simp [dictSet, dictGet, h1, h2, ih]

theorem buildLookup_foldl (names : List String) (acc : List (String × String))
    (k : String) :
    dictGet (names.foldl (fun acc n => dictSet acc (pyLower n) n) acc) k =
      match lastMatch k names with
      | some m => some m
      | none => dictGet acc k := by
  induction names generalizing acc with
  | nil => simp [lastMatch]
  | cons n rest ih =>
    simp only [List.foldl_cons, lastMatch]
    rw [ih]
    cases hrest : lastMatch k rest with
    | some m => simp
    | none =>
      simp only []
      rw [dictGet_dictSet]
      by_cases h : pyLower n = k <;> simp [h]

theorem buildLookup_eq (names : List String) (k : String) :
    dictGet (buildLookup names) k =
      match lastMatch k names with
      | some m => some m
      | none => none := by
  rw [buildLookup, buildLookup_foldl]
  cases lastMatch k names <;> simp [dictGet]

theorem lastMatch_mem {k m : String} {names : List String}
    (h : lastMatch k names = some m) : m ∈ names ∧ pyLower m = k := by
  induction names with
  | nil => simp [lastMatch] at h
  | cons n rest ih =>
    simp only [lastMatch] at h
    cases hrest : lastMatch k rest with
    | some m' =>
      simp only [hrest] at h
      injection h with h'
      subst h'
      exact ⟨List.mem_cons_of_mem n (ih hrest).1, (ih hrest).2⟩
    | none =>
      simp only [hrest] at h
      by_cases hn : pyLower n = k
      · rw [if_pos hn] at h
        injection h with h'
        subst h'
        exact ⟨List.mem_cons_self n rest, hn⟩
      · rw [if_neg hn] at h
        exact absurd h (by simp)

theorem lastMatch_of_mem {S : String} {names : List String} (h : S ∈ names) :
    ∃ m, lastMatch (pyLower S) names = some m := by
  induction names with
  | nil => cases h
  | cons n rest ih =>
    cases hrest : lastMatch (pyLower S) rest with
    | some m => exact ⟨m, by simp only [lastMatch, hrest]⟩
    | none =>
      rcases List.mem_cons.mp h with h1 | h2
      · subst h1
        exact ⟨S, by simp [lastMatch, hrest]⟩
      · obtain ⟨m, hm⟩ := ih h2
        rw [hrest] at hm
        cases hm

theorem pyLower_eq_empty {s : String} (h : pyLower s = "") : s = "" := by
  cases s with
  | mk data =>
    cases data with
    | nil => rfl
    | cons c cs =>
      exact absurd (congrArg String.data h) (by simp [pyLower])


/-! ### C1 — case-insensitive symbol authorization -/

/-- **C1 counterexample**: in an inventory holding both `"AAPL"` and
`"aapl"`, validating the lowercased form of the inventory Symbol `"AAPL"`
returns `"aapl"` (the exact-match branch of `_validate_symbol` fires before
the case-insensitive fallback), not the canonical `"AAPL"` the claim
requires. -/
theorem c1_counterexample :
    "AAPL" ∈ caseRepo.inventory ∧
    validateSymbol caseRepo (pyLower "AAPL") = .ok "aapl" ∧
    validateSymbol caseRepo (pyLower "AAPL") ≠ .ok "AAPL" := by decide

/-- **C1** (amended): provided lowercasing is injective on the table
inventory (no two tables differ only by case), validating any whitespace-
padded case variant of an inventory Symbol `S` returns the canonical `S`
exactly, and any trimmed input matching no inventory table
case-insensitively fails with `UnknownSymbol`. -/
theorem c1_symbol_authorization (R : Repo)
    (hinj : ∀ a ∈ R.inventory, ∀ b ∈ R.inventory, pyLower a = pyLower b → a = b) :
    (∀ S ∈ R.inventory, ∀ input : String,
      pyLower (pyStrip input) = pyLower S → validateSymbol R input = .ok S) ∧
    (∀ input : String,
      (∀ T ∈ R.inventory, pyLower (pyStrip input) ≠ pyLower T) →
      validateSymbol R input = .error .unknownSymbol) := by
  constructor
  · intro S hS input hlow
    simp only [validateSymbol]
    by_cases hmem : pyStrip input ∈ R.inventory
    · rw [if_pos hmem]
      exact congrArg Except.ok (hinj _ hmem _ hS hlow)
    · rw [if_neg hmem]
      obtain ⟨m, hm⟩ := lastMatch_of_mem hS
      obtain ⟨hmmem, hmlow⟩ := lastMatch_mem hm
      have hms : m = S := hinj _ hmmem _ hS hmlow
      subst hms
      have hdg : dictGet (buildLookup R.inventory) (pyLower (pyStrip input))
          = some m := by
        rw [hlow, buildLookup_eq, hm]
      rw [hdg]
      have hne : m ≠ "" := by
        intro h0
        subst h0
        have hstr : pyStrip input = "" := pyLower_eq_empty (by rw [hlow]; rfl)
        exact hmem (hstr ▸ hmmem)
      simp only [if_neg hne]
  · intro input hno
    simp only [validateSymbol]
    have hmem : pyStrip input ∉ R.inventory := fun h => hno _ h rfl
    rw [if_neg hmem, buildLookup_eq]
    cases hm : lastMatch (pyLower (pyStrip input)) R.inventory with
    | some m =>
      obtain ⟨hmmem, hmlow⟩ := lastMatch_mem hm
      exact absurd hmlow.symm (hno _ hmmem)
    | none => rfl

/-- **C1 witness**: on `demoRepo` (case-injective inventory), the padded
lower-case variant `" aapl "` authorizes to canonical `"AAPL"`, and `"zzz"`
fails with `UnknownSymbol`. -/
theorem c1_witness :
    validateSymbol demoRepo " aapl " = .ok "AAPL" ∧
    validateSymbol demoRepo "zzz" = .error .unknownSymbol := by
  have h := c1_symbol_authorization demoRepo (by decide)
  exact ⟨h.1 "AAPL" (by decide) " aapl " (by decide),
    h.2 "zzz" (by decide)⟩


/-! ### C7 — blank query short-circuits search -/

/-- **C7**: for any query that strips to the empty string, `search` returns
the empty result list with an empty data-query log — no error and no query
against the backing store — regardless of the symbol list, date and limit
arguments (the blank-query check precedes every validation). -/
theorem c7_blank_query (R : Repo) (q : String) (symbols : Option (List String))
    (dateFrom : Option String) (limit : Int) (h : pyStrip q = "") :
    search R q symbols dateFrom limit = .ok ([], []) := by
  simp [search, h]

/-- **C7 witness**: a whitespace-only query on `demoRepo` with adversarial
other arguments (negative limit, malformed date, unknown symbol). -/
theorem c7_witness :
    search demoRepo "   " (some ["zzz"]) (some "not-a-date") (-3) = .ok ([], []) :=
  c7_blank_query demoRepo "   " (some ["zzz"]) (some "not-a-date") (-3) (by decide)

/-! ### C6 — document identity -/

/-- **C6**: `_document_id` follows the spec's two-branch rule (refinement
against `specDocumentId`, stated under the data-model invariant that a
discovered primary-key column name is never the empty string): with a
primary key whose row value is non-null the id is `"{symbol}:{value}"`,
otherwise it is `"{symbol}:"` followed by the first 16 hex characters of
`SHA1("{symbol}|{extractedTitle}|{rawDateFieldOrEmpty}")`; and the id is
deterministic (in this pure embedding, two calls give the same value). -/
theorem c6_document_identity (R : Repo) (symbol : String) (row : Row)
    (hpk : ∀ pk, R.primaryKeyOf symbol = some pk → pk ≠ "") :
    documentId R symbol row = specDocumentId R symbol row ∧
    (∀ pk v, R.primaryKeyOf symbol = some pk → rowGet row pk = some v →
      documentId R symbol row = symbol ++ ":" ++ v) ∧
    ((∀ pk, R.primaryKeyOf symbol = some pk → rowGet row pk = none) →
      documentId R symbol row = symbol ++ ":" ++
        (sha1Hex (symbol ++ "|" ++ extractTitle row ++ "|" ++
          dateFieldRepr row)).take 16) ∧
    documentId R symbol row = documentId R symbol row := by
  refine ⟨?_, ?_, ?_, rfl⟩
  · simp only [documentId, specDocumentId]
    cases hp : R.primaryKeyOf symbol with
    | none => rfl
    | some pk => simp [hpk pk hp]
  · intro pk v hp hv
    simp [documentId, hp, hv, hpk pk hp]
  · intro hnone
    cases hp : R.primaryKeyOf symbol with
    | none => simp [documentId, hp, docIdHash]
    | some pk => simp [documentId, hp, hnone pk hp, docIdHash]

/-- **C6 witness**: the refinement and the primary-key branch at the
concrete `AAPL` row of `demoRepo`. -/
theorem c6_witness :
    documentId demoRepo "AAPL" aaplRow = specDocumentId demoRepo "AAPL" aaplRow ∧
    documentId demoRepo "AAPL" aaplRow = "AAPL" ++ ":" ++ "1" := by
  have h := c6_document_identity demoRepo "AAPL" aaplRow (by decide)
  exact ⟨h.1, h.2.1 "id" "1" (by decide) (by decide)⟩

/-! ### C9 — cache atomicity -/

/-- **C9**: each metadata lookup leaves the cache state unchanged when its
backing query fails (so a later call re-attempts discovery), and on success
writes the complete entry in one step (a written entry is never observed
partially populated: the symbols cache and its lowercase lookup are built
together, and a columns entry is the full discovered list). -/
theorem c9_cache_atomicity (db : MetaDb) (s : CacheState) (symbol : String) :
    (db.tablesQuery = .error () → s.symbolsCache = [] →
      refreshSymbolsCache db s = (.error .metadataUnavailable, s)) ∧
    (db.columnsQuery symbol = .error () → dictGet s.columnsCache symbol = none →
      resolveColumnsC db symbol s = (.error .metadataUnavailable, s)) ∧
    (db.pkQuery symbol = .error () → dictGet s.primaryKeyCache symbol = none →
      resolvePrimaryKeyC db symbol s = (.error .metadataUnavailable, s)) ∧
    (∀ names, db.tablesQuery = .ok names → s.symbolsCache = [] →
      refreshSymbolsCache db s = (.ok (),
        { s with symbolsCache := dedupKeepFirst names,
                 symbolLookupCache := buildLookup (dedupKeepFirst names) })) ∧
    (∀ cols, db.columnsQuery symbol = .ok cols →
      dictGet s.columnsCache symbol = none →
      resolveColumnsC db symbol s =
        (.ok cols, { s with columnsCache := dictSet s.columnsCache symbol cols }) ∧
      dictGet (dictSet s.columnsCache symbol cols) symbol = some cols) := by
  refine ⟨?_, ?_, ?_, ?_, ?_⟩
  · intro h1 h2
    simp [refreshSymbolsCache, h1, h2]
  · intro h1 h2
    simp [resolveColumnsC, h1, h2]
  · intro h1 h2
    simp [resolvePrimaryKeyC, h1, h2]
  · intro names h1 h2
    simp [refreshSymbolsCache, h1, h2]
  · intro cols h1 h2
    refine ⟨by simp [resolveColumnsC, h1, h2], ?_⟩
    simp [dictGet_dictSet]

/-- **C9 witness**: concrete failing and succeeding backends against the
freshly initialized cache. -/
theorem c9_witness :
    refreshSymbolsCache failingDb emptyCache
      = (.error .metadataUnavailable, emptyCache) ∧
    resolveColumnsC failingDb "AAPL" emptyCache
      = (.error .metadataUnavailable, emptyCache) ∧
    refreshSymbolsCache okDb emptyCache = (.ok (),
      { emptyCache with
        symbolsCache := dedupKeepFirst ["AAPL", "NODATE", "NOPK"],
        symbolLookupCache := buildLookup (dedupKeepFirst ["AAPL", "NODATE", "NOPK"]) }) := by
  have h := c9_cache_atomicity failingDb emptyCache "AAPL"
  have h2 := c9_cache_atomicity okDb emptyCache "AAPL"
  exact ⟨h.1 rfl rfl, h.2.1 rfl rfl, h2.2.2.2.1 _ rfl rfl⟩


/-! ### C2 — search bounds -/

theorem searchLoop_log_length (R : Repo) (c : String) (d : Option String)
    (rl : Nat) (targets : List String) :
    ∀ results log,
      ((searchLoop R c d rl targets results log).2).length
        ≤ log.length + targets.length := by
  induction targets with
  | nil =>
    intro results log
    simp [searchLoop]
  | cons sym rest ih =>
    intro results log
    simp only [searchLoop]
    split
    · simp
    · split
      · have := ih results log
        simp only [List.length_cons]
        omega
      · refine le_trans (ih _ _) ?_
        simp only [List.length_append, List.length_cons, List.length_nil]
        omega

theorem searchLoop_log_mem (R : Repo) (c : String) (d : Option String)
    (rl : Nat) (targets : List String) :
    ∀ results log e, e ∈ (searchLoop R c d rl targets results log).2 →
      e ∈ log ∨ (e.1 ∈ targets ∧ e.2 ≤ R.maxRows ∧ e.2 ≤ rl) := by
  induction targets with
  | nil =>
    intro results log e he
    simp only [searchLoop] at he
    exact Or.inl he
  | cons sym rest ih =>
    intro results log e he
    simp only [searchLoop] at he
    split at he
    · exact Or.inl he
    · split at he
      · rcases ih _ _ e he with h | h
        · exact Or.inl h
        · exact Or.inr ⟨List.mem_cons_of_mem _ h.1, h.2⟩
      · rcases ih _ _ e he with h | h
        · rcases List.mem_append.mp h with h' | h'
          · exact Or.inl h'
          · have he2 : e = (sym, min (rl - results.length) R.maxRows) := by
              simpa using h'
            subst he2
            exact Or.inr ⟨List.mem_cons_self _ _, Nat.min_le_right _ _,
              le_trans (Nat.min_le_left _ _) (Nat.sub_le _ _)⟩
        · exact Or.inr ⟨List.mem_cons_of_mem _ h.1, h.2⟩


/-- **C2**: a successful `search` returns at most `limit` results; when no
explicit symbol list is supplied every queried table is among the
lexicographically first `max_scan_symbols` Symbols of the inventory and at
most that many tables are queried; and every per-table fetch is capped at
the configured `max_rows` and at the overall budget (the actual bound is
`min(remaining budget, max_rows)`, which these two inequalities cover). -/
theorem c2_search_bounds (R : Repo) (q : String) (symbols : Option (List String))
    (dateFrom : Option String) (limit : Int) (res : List SearchHit)
    (log : List (String × Nat))
    (h : search R q symbols dateFrom limit = .ok (res, log)) :
    res.length ≤ limit.toNat ∧
    (symbols = none →
      log.length ≤ R.maxScanSymbols ∧
      ∀ e ∈ log, e.1 ∈ (sortStrings R.inventory).take R.maxScanSymbols) ∧
    (∀ e ∈ log, e.2 ≤ R.maxRows ∧ e.2 ≤ limit.toNat) := by
  simp only [search] at h
  by_cases hq : pyStrip q = ""
  · rw [if_pos hq] at h
    obtain ⟨rfl, rfl⟩ : res = [] ∧ log = [] := by
      injection h with h'
      exact ⟨(congrArg Prod.fst h').symm, (congrArg Prod.snd h').symm⟩
    simp
  · rw [if_neg hq] at h
    cases hsl : safeLimit R limit with
    | error e => simp [hsl] at h
    | ok rowLimit =>
      simp only [hsl] at h
      have hrl : rowLimit ≤ limit.toNat ∧ rowLimit ≤ R.maxRows := by
        simp only [safeLimit] at hsl
        split at hsl
        · cases hsl
        · injection hsl with h'
          subst h'
          exact ⟨Nat.min_le_left _ _, Nat.min_le_right _ _⟩
      cases hts : resolveTargetSymbols R symbols with
      | error e => simp [hts] at h
      | ok targets =>
        simp only [hts] at h
        have hout : res = (searchLoop R (pyStrip q) dateFrom rowLimit targets [] []).1.take rowLimit ∧
            log = (searchLoop R (pyStrip q) dateFrom rowLimit targets [] []).2 := by
          by_cases hd : truthyOptStr dateFrom = true
          · rw [if_pos hd] at h
            cases hvd : validateDate (dateFrom.getD "") with
            | error e => simp [hvd] at h
            | ok u =>
              simp only [hvd] at h
              injection h with h'
              exact ⟨(congrArg Prod.fst h').symm, (congrArg Prod.snd h').symm⟩
          · rw [if_neg hd] at h
            injection h with h'
            exact ⟨(congrArg Prod.fst h').symm, (congrArg Prod.snd h').symm⟩
        obtain ⟨hres, hlog⟩ := hout
        refine ⟨?_, ?_, ?_⟩
        · rw [hres]
          exact le_trans (List.length_take_le _ _) hrl.1
        · intro hnone
          subst hnone
          have htargets : targets = (sortStrings R.inventory).take R.maxScanSymbols := by
            simp only [resolveTargetSymbols] at hts
            injection hts with h'
            exact h'.symm
          constructor
          · rw [hlog]
            refine le_trans (searchLoop_log_length R _ _ _ _ _ _) ?_
            rw [htargets]
            simp only [List.length_nil, Nat.zero_add]
            exact le_trans (List.length_take_le _ _) (le_refl _)
          · intro e he
            rw [hlog] at he
            rcases searchLoop_log_mem R _ _ _ _ _ _ e he with h' | h'
            · cases h'
            · rw [htargets] at h'
              exact h'.1
        · intro e he
          rw [hlog] at he
          rcases searchLoop_log_mem R _ _ _ _ _ _ e he with h' | h'
          · cases h'
          · exact ⟨h'.2.1, le_trans h'.2.2 hrl.1⟩

/-- **C2 witness**: a concrete inventory-wide search on `demoRepo`
(`symbols = none`): one matching row, three tables queried. -/
theorem c2_witness :
    ([⟨"NODATE:7", "plain row", "mysql://news/NODATE/7", "plain row",
       "NODATE", none⟩] : List SearchHit).length ≤ (5 : Int).toNat ∧
    ([("AAPL", 5), ("NODATE", 5), ("NOPK", 4)] : List (String × Nat)).length
      ≤ demoRepo.maxScanSymbols := by
  have h := c2_search_bounds demoRepo "plain" none none 5
    [⟨"NODATE:7", "plain row", "mysql://news/NODATE/7", "plain row",
      "NODATE", none⟩]
    [("AAPL", 5), ("NODATE", 5), ("NOPK", 4)] (by decide)
  exact ⟨h.1, (h.2.1 rfl).1⟩


/-! ### C10 — explicit symbol lists are truncated to the scan cap -/

/-- **C10**: an explicit symbol list is validated, de-duplicated preserving
order, and then truncated to `max_scan_symbols`; consequently every table a
resulting `search` queries lies in the first `max_scan_symbols` entries of
the de-duplicated validated list, so trailing symbols are never queried. -/
theorem c10_explicit_list_truncation (R : Repo) (l : List String)
    (validated : List String) (hne : l ≠ [])
    (hval : l.mapM (validateSymbol R) = .ok validated) :
    resolveTargetSymbols R (some l) =
      .ok ((dedupKeepFirst validated).take R.maxScanSymbols) ∧
    ((dedupKeepFirst validated).take R.maxScanSymbols).length ≤ R.maxScanSymbols ∧
    (∀ q dateFrom limit res log,
      search R q (some l) dateFrom limit = .ok (res, log) →
      ∀ e ∈ log, e.1 ∈ (dedupKeepFirst validated).take R.maxScanSymbols) := by
  have hrt : resolveTargetSymbols R (some l) =
      .ok ((dedupKeepFirst validated).take R.maxScanSymbols) := by
    cases l with
    | nil => exact absurd rfl hne
    | cons x xs => simp only [resolveTargetSymbols, hval]
  refine ⟨hrt, List.length_take_le _ _, ?_⟩
  intro q dateFrom limit res log h e he
  simp only [search] at h
  by_cases hq : pyStrip q = ""
  · rw [if_pos hq] at h
    injection h with h'
    have hl : log = [] := (congrArg Prod.snd h').symm
    subst hl
    cases he
  · rw [if_neg hq] at h
    cases hsl : safeLimit R limit with
    | error er => simp [hsl] at h
    | ok rowLimit =>
      simp only [hsl, hrt] at h
      have hlog : log = (searchLoop R (pyStrip q) dateFrom rowLimit
          ((dedupKeepFirst validated).take R.maxScanSymbols) [] []).2 := by
        by_cases hd : truthyOptStr dateFrom = true
        · rw [if_pos hd] at h
          cases hvd : validateDate (dateFrom.getD "") with
          | error er => simp [hvd] at h
          | ok u =>
            simp only [hvd] at h
            injection h with h'
            exact (congrArg Prod.snd h').symm
        · rw [if_neg hd] at h
          injection h with h'
          exact (congrArg Prod.snd h').symm
      rw [hlog] at he
      rcases searchLoop_log_mem R _ _ _ _ _ _ e he with h' | h'
      · cases h'
      · exact h'.1

/-- **C10 witness**: on `capRepo` (scan cap 1), the explicit list
`["NODATE", "NOPK"]` is truncated to its first entry; the concrete search
queried only `NODATE`, and the trailing `NOPK` is outside the truncated
target list. -/
theorem c10_witness :
    resolveTargetSymbols capRepo (some ["NODATE", "NOPK"]) =
      .ok ((dedupKeepFirst ["NODATE", "NOPK"]).take capRepo.maxScanSymbols) ∧
    (("NODATE", 5) : String × Nat).1 ∈
      (dedupKeepFirst ["NODATE", "NOPK"]).take capRepo.maxScanSymbols ∧
    "NOPK" ∉ (dedupKeepFirst ["NODATE", "NOPK"]).take capRepo.maxScanSymbols := by
  have h := c10_explicit_list_truncation capRepo ["NODATE", "NOPK"]
    ["NODATE", "NOPK"] (by decide) (by decide)
  refine ⟨h.1, ?_, by decide⟩
  exact h.2.2 "row" none 5
    [⟨"NODATE:7", "plain row", "mysql://news/NODATE/7", "plain row",
      "NODATE", none⟩]
    [("NODATE", 5)] (by decide) ("NODATE", 5) (by decide)


/-! ### C3 — limit validation and clamping -/

/-- **C3 counterexample**: `search` with an empty query and `limit = 0`
returns an empty result list instead of failing with `InvalidLimit` — the
blank-query short-circuit precedes the limit validation. -/
theorem c3_counterexample :
    search demoRepo "" none none 0 = .ok ([], []) ∧
    search demoRepo "" none none 0 ≠ .error .invalidLimit := by decide

/-- **C3** (amended): with a limit supplied (list), a validating symbol
(readBySymbol) or a non-blank query (search), a requested limit ≤ 0 fails
with `InvalidLimit`; `search` with a blank query returns `[]` before the
limit is validated, and in readBySymbol symbol validation precedes limit
validation.  For limit > 0 the effective limit is `min(limit, maxRows)`,
so readBySymbol returns at most that many rows. -/
theorem c3_limit_validation (R : Repo) (limit : Int) :
    (limit ≤ 0 →
      listSymbols R (some limit) = .error .invalidLimit ∧
      (∀ symbol ns dateFrom, validateSymbol R symbol = .ok ns →
        getSymbolNews R symbol dateFrom limit = .error .invalidLimit) ∧
      (∀ q symbols dateFrom, pyStrip q ≠ "" →
        search R q symbols dateFrom limit = .error .invalidLimit)) ∧
    (0 < limit → ∀ symbol dateFrom rows,
      getSymbolNews R symbol dateFrom limit = .ok rows →
      rows.length ≤ min limit.toNat R.maxRows) := by
  constructor
  · intro hl
    have hsl : safeLimit R limit = .error .invalidLimit := by
      simp [safeLimit, hl]
    refine ⟨?_, ?_, ?_⟩
    · simp [listSymbols, hsl]
    · intro symbol ns dateFrom hv
      simp [getSymbolNews, hv, hsl]
    · intro q symbols dateFrom hq
      simp [search, hq, hsl]
  · intro hl symbol dateFrom rows h
    simp only [getSymbolNews] at h
    cases hv : validateSymbol R symbol with
    | error e => simp [hv] at h
    | ok ns =>
      simp only [hv] at h
      have hs2 : safeLimit R limit = .ok (min limit.toNat R.maxRows) := by
        simp only [safeLimit, if_neg (not_le.mpr hl)]
      simp only [hs2] at h
      cases hdc : resolveDateColumn R ns with
      | some dc =>
        simp only [hdc] at h
        by_cases hd : truthyOptStr dateFrom = true
        · rw [if_pos hd] at h
          cases hvd : validateDate (dateFrom.getD "") with
          | error e => simp [hvd] at h
          | ok u =>
            simp only [hvd] at h
            injection h with h'
            rw [← h']
            simp only [List.length_map]
            exact List.length_take_le _ _
        · rw [if_neg hd] at h
          injection h with h'
          rw [← h']
          simp only [List.length_map]
          exact List.length_take_le _ _
      | none =>
        simp only [hdc] at h
        injection h with h'
        rw [← h']
        simp only [List.length_map]
        exact List.length_take_le _ _

/-- **C3 witness**: the three `InvalidLimit` failures at concrete limits
≤ 0, and the clamp bound at limit 5 on the concrete `AAPL` read. -/
theorem c3_witness :
    listSymbols demoRepo (some 0) = .error .invalidLimit ∧
    getSymbolNews demoRepo "AAPL" none 0 = .error .invalidLimit ∧
    search demoRepo "x" none none (-2) = .error .invalidLimit ∧
    ([[("id", some "1"), ("Title", some "Apple beats estimates"),
       ("date", some "2024-01-05 00:00:00"), ("symbol", some "AAPL"),
       ("document_id", some "AAPL:1")]] : List Row).length
      ≤ min (5 : Int).toNat demoRepo.maxRows := by
  have h0 := c3_limit_validation demoRepo 0
  have hm := c3_limit_validation demoRepo (-2)
  have h5 := c3_limit_validation demoRepo 5
  exact ⟨(h0.1 (by decide)).1,
    (h0.1 (by decide)).2.1 "AAPL" "AAPL" none (by decide),
    (hm.1 (by decide)).2.2 "x" none none (by decide),
    h5.2 (by decide) "AAPL" none _ (by decide)⟩

/-! ### C4 — id shape validation in fetch -/

/-- `_validate_symbol` only ever fails with `UnknownSymbol`. -/
theorem validateSymbol_error {R : Repo} {s : String} {e : RepoError}
    (h : validateSymbol R s = .error e) : e = .unknownSymbol := by
  simp only [validateSymbol] at h
  split at h
  · cases h
  · cases hd : dictGet (buildLookup R.inventory) (pyLower (pyStrip s)) with
    | some f =>
      simp only [hd] at h
      split at h
      · injection h with h'
        exact h'.symm
      · cases h
    | none =>
      simp only [hd] at h
      injection h with h'
      exact h'.symm

/-- **C4 counterexample**: the id `"AAPL:1:2"` contains two separators, so
under the claim it should fail with `MalformedId`; instead `fetch` splits at
the first colon, queries the `AAPL` table for primary key `"1:2"` and fails
with `NotFound` — and a query *was* executed. -/
theorem c4_counterexample :
    fetch demoRepo "AAPL:1:2" = (.error .notFound, ["AAPL"]) ∧
    (fetch demoRepo "AAPL:1:2").1 ≠ .error .malformedId := by decide

/-- **C4** (amended): `fetch` requires the id to contain at least one `':'`
and splits it at the first occurrence; an id with no `':'` fails with
`MalformedId` and no query is executed for it, and `MalformedId` is raised
for no other input. -/
theorem c4_malformed_id (R : Repo) (identifier : String) :
    (strSplitFirstColon identifier = none →
      fetch R identifier = (.error .malformedId, [])) ∧
    (strSplitFirstColon identifier ≠ none →
      (fetch R identifier).1 ≠ .error .malformedId) := by
  constructor
  · intro h
    simp [fetch, h]
  · intro h
    simp only [fetch]
    cases hs : strSplitFirstColon identifier with
    | none => exact absurd hs h
    | some p =>
      obtain ⟨symbol, rawPk⟩ := p
      cases hv : validateSymbol R symbol with
      | error e => simp [hv, validateSymbol_error hv]
      | ok ns =>
        simp only [hv]
        cases hpk : R.primaryKeyOf ns with
        | none => simp
        | some pk =>
          simp only [hpk]
          by_cases hpe : pk = ""
          · simp [hpe]
          · rw [if_neg hpe]
            cases hrows : ((R.tableRows ns).filter
                (fun r => rowGet r pk == some rawPk)).take 1 with
            | nil => simp [hrows]
            | cons r rest => simp [hrows]

/-- **C4 witness**: a colon-free id fails with `MalformedId` without any
query; a well-formed id does not produce `MalformedId`. -/
theorem c4_witness :
    fetch demoRepo "AAPL1" = (.error .malformedId, []) ∧
    (fetch demoRepo "AAPL:1").1 ≠ .error .malformedId := by
  have h := c4_malformed_id demoRepo "AAPL1"
  have h2 := c4_malformed_id demoRepo "AAPL:1"
  exact ⟨h.1 (by decide), h2.2 (by decide)⟩


/-! ### C5 — fetch error taxonomy and returned id -/

/-- **C5**: for a well-formed id whose symbol validates, `fetch` fails with
`NoPrimaryKey` on a keyless table regardless of the key value, fails with
`NotFound` when the exact-match primary-key query yields no row, and on
success the Document's id is `"{canonical symbol}:{raw key value}"` (so
`fetchById("SYM:123")` on a table with primary key `id` and a row with
`id=123` returns that row's Document with id `"SYM:123"`). -/
theorem c5_fetch_by_id (R : Repo) (identifier symbol rawPk ns : String)
    (hsplit : strSplitFirstColon identifier = some (symbol, rawPk))
    (hval : validateSymbol R symbol = .ok ns) :
    (R.primaryKeyOf ns = none → fetch R identifier = (.error .noPrimaryKey, [])) ∧
    (∀ pk, R.primaryKeyOf ns = some pk → pk ≠ "" →
      ((R.tableRows ns).filter (fun r => rowGet r pk == some rawPk) = [] →
        fetch R identifier = (.error .notFound, [ns])) ∧
      (∀ doc log, fetch R identifier = (.ok doc, log) →
        doc.id = ns ++ ":" ++ rawPk)) := by
  constructor
  · intro hpk
    simp [fetch, hsplit, hval, hpk]
  · intro pk hpk hpe
    constructor
    · intro hrows
      simp [fetch, hsplit, hval, hpk, hpe, hrows]
    · intro doc log h
      simp only [fetch, hsplit, hval, hpk] at h
      rw [if_neg hpe] at h
      cases hrows : ((R.tableRows ns).filter
          (fun r => rowGet r pk == some rawPk)).take 1 with
      | nil => simp [hrows] at h
      | cons r rest =>
        simp only [hrows] at h
        have h1 := congrArg Prod.fst h
        injection h1 with h2
        have hr : rowGet r pk = some rawPk := by
          have hmem : r ∈ ((R.tableRows ns).filter
              (fun r => rowGet r pk == some rawPk)).take 1 := by
            rw [hrows]
            exact List.mem_cons_self _ _
          have hmem2 := List.mem_of_mem_take hmem
          exact eq_of_beq (List.mem_filter.mp hmem2).2
        rw [← h2]
        simp only [documentId, hpk, if_pos hpe, hr]

/-- **C5 witness**: keyless `NOPK:9` fails with `NoPrimaryKey`, missing
`AAPL:2` fails with `NotFound`, and the Document fetched for `AAPL:1` has
id `"AAPL:1"`. -/
theorem c5_witness :
    fetch demoRepo "NOPK:9" = (.error .noPrimaryKey, []) ∧
    fetch demoRepo "AAPL:2" = (.error .notFound, ["AAPL"]) ∧
    ({ id := "AAPL:1", title := "Apple beats estimates",
       text := "Apple beats estimates", url := "mysql://news/AAPL/1",
       metaSymbol := "AAPL", metaSchema := "news",
       metaPrimaryKeyColumn := "id", metaRawRow := aaplRow } : Document).id
      = "AAPL" ++ ":" ++ "1" := by
  have h9 := c5_fetch_by_id demoRepo "NOPK:9" "NOPK" "9" "NOPK"
    (by decide) (by decide)
  have h2 := c5_fetch_by_id demoRepo "AAPL:2" "AAPL" "2" "AAPL"
    (by decide) (by decide)
  have h1 := c5_fetch_by_id demoRepo "AAPL:1" "AAPL" "1" "AAPL"
    (by decide) (by decide)
  exact ⟨h9.1 (by decide),
    (h2.2 "id" (by decide) (by decide)).1 (by decide),
    (h1.2 "id" (by decide) (by decide)).2 _ ["AAPL"] (by decide)⟩

/-! ### C8 — date validation -/

/-- **C8 counterexample**: `readBySymbol` on `NODATE` (a table without a
date column) with the malformed `date_from = "not-a-date"` succeeds instead
of failing with `InvalidDateFormat` — `_validate_date` is only reached when
`date_from and date_column` are both truthy. -/
theorem c8_counterexample :
    validDateB "not-a-date" = false ∧
    getSymbolNews demoRepo "NODATE" (some "not-a-date") 5 =
      .ok [[("id", some "7"), ("Title", some "plain row"),
        ("symbol", some "NODATE"), ("document_id", some "NODATE:7")]] := by
  decide

/-- **C8** (amended): `search` validates any truthy `date_from` against
`YYYY-MM-DD` and fails with `InvalidDateFormat` on malformed input;
`readBySymbol` performs that validation only when the resolved table has a
date column — when there is none, a malformed `date_from` is silently
ignored and the call succeeds. -/
theorem c8_date_validation (R : Repo) :
    (∀ q symbols d limit targets, pyStrip q ≠ "" → (0 : Int) < limit →
      resolveTargetSymbols R symbols = .ok targets →
      d ≠ "" → validDateB d = false →
      search R q symbols (some d) limit = .error .invalidDateFormat) ∧
    (∀ symbol ns d limit dc, validateSymbol R symbol = .ok ns →
      (0 : Int) < limit → resolveDateColumn R ns = some dc →
      d ≠ "" → validDateB d = false →
      getSymbolNews R symbol (some d) limit = .error .invalidDateFormat) ∧
    (∀ symbol ns d limit, validateSymbol R symbol = .ok ns →
      (0 : Int) < limit → resolveDateColumn R ns = none →
      getSymbolNews R symbol (some d) limit =
        .ok (((R.tableRows ns).take (min limit.toNat R.maxRows)).map
          (augmentRow R ns))) := by
  refine ⟨?_, ?_, ?_⟩
  · intro q symbols d limit targets hq hlim hts hdne hvd
    have hsl : safeLimit R limit = .ok (min limit.toNat R.maxRows) := by
      simp only [safeLimit, if_neg (not_le.mpr hlim)]
    have hd : truthyOptStr (some d) = true := by
      simp [truthyOptStr, hdne]
    simp [search, hq, hsl, hts, hd, validateDate, hvd]
  · intro symbol ns d limit dc hv hlim hdc hdne hvd
    have hsl : safeLimit R limit = .ok (min limit.toNat R.maxRows) := by
      simp only [safeLimit, if_neg (not_le.mpr hlim)]
    have hd : truthyOptStr (some d) = true := by
      simp [truthyOptStr, hdne]
    simp [getSymbolNews, hv, hsl, hdc, hd, validateDate, hvd]
  · intro symbol ns d limit hv hlim hdc
    have hsl : safeLimit R limit = .ok (min limit.toNat R.maxRows) := by
      simp only [safeLimit, if_neg (not_le.mpr hlim)]
    simp [getSymbolNews, hv, hsl, hdc]

/-- **C8 witness**: `search` rejects the malformed date `"2024-13-01"`;
`readBySymbol` rejects `"bad"` on `AAPL` (which has a date column) but
accepts it on `NODATE` (which has none). -/
theorem c8_witness :
    search demoRepo "x" none (some "2024-13-01") 5 = .error .invalidDateFormat ∧
    getSymbolNews demoRepo "AAPL" (some "bad") 5 = .error .invalidDateFormat ∧
    getSymbolNews demoRepo "NODATE" (some "bad") 5 =
      .ok (((demoRepo.tableRows "NODATE").take
        (min (5 : Int).toNat demoRepo.maxRows)).map
          (augmentRow demoRepo "NODATE")) := by
  have h := c8_date_validation demoRepo
  exact ⟨h.1 "x" none "2024-13-01" 5
      ((sortStrings demoRepo.inventory).take demoRepo.maxScanSymbols)
      (by decide) (by decide) (by decide) (by decide) (by decide),
    h.2.1 "AAPL" "AAPL" "bad" 5 "date" (by decide) (by decide) (by decide)
      (by decide) (by decide),
    h.2.2 "NODATE" "NODATE" "bad" 5 (by decide) (by decide) (by decide)⟩

end NewsServer
